import Mathlib

/-!
Verification development for the `richerror` repository.

The repository has two components:

* `errors.go` (the `errors` package): a structured error value `richError`
  with builder-style mutators and several textual renderers.
* `internal/cmd/generate.go`: a code generator that loads a JSON catalog of
  error definitions, filters them by tag, and renders one source unit per
  surviving entry.

The definitions below are a shallow embedding of that Go code:

* Go strings stay `String`; Go `int` values that are only ever non-negative
  in the program (frame depths, line numbers, program counters) are `Nat`.
* `time.Time` values are modelled by their rendered form (`OccurredAt`
  holds the string `e.OccurredAt.String()` would produce), since the code
  never inspects the time other than by rendering it.
* `RichErrorOutputFormat` is Go's `type ... int`, so it is `Int` here with
  the seven named constants; a `switch` on it becomes an `if`-chain.
* the two package-level variables (`customOutputFunction`,
  `errorOutputFormat`) become an explicit `Globals` record threaded through
  the functions that read them.
* `panic` becomes `Except.error` carrying the panic message.
* Go `error` interface values are the inductive `GoErr`: `nilE` is the nil
  interface value, `plain msg` is any foreign error whose `Error()` returns
  `msg`, and `rich e` is a `richError` value (which satisfies the
  `ReadOnlyRichError` interface).
* custom output functions (`CustomOutputFunc`) are opaque: a type parameter
  `Cof` plus an application map `applyCof` passed where the code calls one.
-/

set_option autoImplicit false

namespace Richerror

/-! ### Output format constants (errors.go)

`type RichErrorOutputFormat int` with an iota block `NotSpecified = 0` up
to `ShortOutput = 6`. -/

abbrev RichErrorOutputFormat := Int

def NotSpecified : RichErrorOutputFormat := 0
def CustomOutput : RichErrorOutputFormat := 1
def DetailedOutput : RichErrorOutputFormat := 2
def FullOutputFormatted : RichErrorOutputFormat := 3
def FullOutputInline : RichErrorOutputFormat := 4
def ShortDetailedOutput : RichErrorOutputFormat := 5
def ShortOutput : RichErrorOutputFormat := 6

/-! ### Call stack entries -/

/-- Go struct `callStackEntry`.  `Depth`, `Line`, `Entry`, `PC` are Go `int`
/ `uintptr`; the program only ever stores non-negative values in them
(loop indices, source line numbers, addresses), so they are `Nat`. -/
structure callStackEntry where
  Depth : Nat
  Entry : Nat
  File : String
  Function : String
  Line : Nat
  PC : Nat
deriving DecidableEq, Repr

/-- Go `strings.Repeat s n`. -/
def strRepeat (s : String) : Nat → String
  | 0 => ""
  | n + 1 => s ++ strRepeat s n

/-- Concatenation of a list of strings, in order (models sequential
`bytes.Buffer.WriteString` calls / `strings` concatenation). -/
def strJoin : List String → String
  | [] => ""
  | s :: rest => s ++ strJoin rest

/-- Go method `(cse *callStackEntry) String()`:
`fmt.Sprintf("L:%d %v - %s:%d - %s", Depth, Entry, File, Line, Function)`. -/
def callStackEntry.toStr (cse : callStackEntry) : String :=
  "L:" ++ toString cse.Depth ++ " " ++ toString cse.Entry ++ " - " ++
    cse.File ++ ":" ++ toString cse.Line ++ " - " ++ cse.Function

/-! ### The richError value and Go error interface values -/

/-- Go struct `richError`, generic over the type `ε` of inner error values
(instantiated below with `GoErr Cof` to close the knot) and the opaque
type `Cof` of custom output functions.  `MetaData` is an association list
standing for the Go map (iteration in insertion order); `OccurredAt` holds
the rendered timestamp. -/
structure RichErrG (Cof ε : Type) where
  ErrCode : String
  Message : String
  Source : String := ""
  Function : String := ""
  Line : String := ""
  OccurredAt : String
  Tags : List String := []
  Stack : List callStackEntry := []
  InnerErrors : List ε := []
  MetaData : List (String × String) := []
  outputFormat : RichErrorOutputFormat := NotSpecified
  customOutputFunction : Option Cof := none

/-- A Go `error` interface value as the richerror code can observe it:
the nil interface, a foreign error with its `Error()` text, or a
`richError` (which also implements `ReadOnlyRichError`). -/
inductive GoErr (Cof : Type) : Type where
  | nilE : GoErr Cof
  | plain (msg : String) : GoErr Cof
  | rich (e : RichErrG Cof (GoErr Cof)) : GoErr Cof

/-- The `richError` struct proper: inner errors are Go error values. -/
abbrev RichErr (Cof : Type) := RichErrG Cof (GoErr Cof)

/-- The two package-level variables of `errors.go`:
`customOutputFunction` (initially nil) and `errorOutputFormat`
(initially `FullOutputFormatted`). -/
structure Globals (Cof : Type) where
  customOutputFunction : Option Cof := none
  errorOutputFormat : RichErrorOutputFormat := FullOutputFormatted

/-- The package-level variables at process start. -/
def initialGlobals (Cof : Type) : Globals Cof := {}

/-- Go `SetGlobalCustomOutputFunction`. -/
def SetGlobalCustomOutputFunction {Cof : Type} (cof : Option Cof)
    (g : Globals Cof) : Globals Cof :=
  { g with customOutputFunction := cof }

/-- Go `SetGlobalErrorOutputFormat`. -/
def SetGlobalErrorOutputFormat {Cof : Type} (format : RichErrorOutputFormat)
    (g : Globals Cof) : Globals Cof :=
  { g with errorOutputFormat := format }

/-- Go `NewRichError(errCode, message)`: only code, message and the
construction timestamp are set; all other fields are zero values. -/
def NewRichError {Cof : Type} (errCode message occurredAt : String) :
    RichErr Cof :=
  { ErrCode := errCode, Message := message, OccurredAt := occurredAt }

/-! ### Mutators (value receivers: each one copies the struct, updates the
copy, and returns it) -/

/-- A logical frame of the ambient Go call stack, as `runtime.Callers` +
`runtime.CallersFrames` report it.  The ambient stack itself is a
parameter of the `WithStack` model: frame 0 is what effective skip 0 would
return. -/
structure runtimeFrame where
  Entry : Nat
  File : String
  Function : String
  Line : Nat
  PC : Nat
deriving DecidableEq, Repr

/-- Model of `runtime.Callers(skip, buf)` followed by
`runtime.CallersFrames` iteration: the frames of the ambient stack from
index `skip` on, at most `bufLen` of them (the Go code passes a buffer of
length 10 and `runtime.Callers` does not grow it). -/
def runtimeCallers (skip bufLen : Nat) (callStack : List runtimeFrame) :
    List runtimeFrame :=
  (callStack.drop skip).take bufLen

/-- The function-name trimming inside `WithStack`: Go keeps the substring
after the last "." (`strings.LastIndex` is -1 when absent, so the whole
name is kept); the empty name is left alone. -/
def trimFunctionName (s : String) : String :=
  if s.isEmpty then s else (s.splitOn ".").getLastD ""

namespace RichErr

variable {Cof : Type}

/-- Go `richError.WithStack(stackOffset)`.  `callStack` is the ambient
call stack (a model parameter: the real code reads it from the runtime).
The code uses `baseStackOffset = 2` to skip `runtime.Callers` itself and
the `WithStack` call, fills a fixed buffer of 10 PCs, sets
source/function/line from the first captured frame, and appends every
captured frame with its loop index as `Depth`. -/
def WithStack (callStack : List runtimeFrame) (stackOffset : Nat)
    (e : RichErr Cof) : RichErr Cof :=
  let baseStackOffset := 2
  let frames := runtimeCallers (baseStackOffset + stackOffset) 10 callStack
  let e1 : RichErr Cof :=
    match frames with
    | [] => e
    | fr :: _ =>
      { e with
        Source := fr.File
        Function := trimFunctionName fr.Function
        Line := toString fr.Line }
  { e1 with
    Stack := e1.Stack ++ frames.enum.map (fun p =>
      { Depth := p.1, Entry := p.2.Entry, File := p.2.File,
        Function := p.2.Function, Line := p.2.Line, PC := p.2.PC }) }

/-- Go `richError.WithMetaData`: wholesale replacement. -/
def WithMetaData (metaData : List (String × String)) (e : RichErr Cof) :
    RichErr Cof :=
  { e with MetaData := metaData }

/-- Go `richError.WithErrors`: `e.InnerErrors = append(e.InnerErrors, errs...)`. -/
def WithErrors (errs : List (GoErr Cof)) (e : RichErr Cof) : RichErr Cof :=
  { e with InnerErrors := e.InnerErrors ++ errs }

/-- Go `richError.WithTags`: wholesale replacement. -/
def WithTags (tags : List String) (e : RichErr Cof) : RichErr Cof :=
  { e with Tags := tags }

/-- Go `richError.AddSource`. -/
def AddSource (source : String) (e : RichErr Cof) : RichErr Cof :=
  { e with Source := source }

/-- Go `richError.AddFunction`. -/
def AddFunction (function : String) (e : RichErr Cof) : RichErr Cof :=
  { e with Function := function }

/-- Go `richError.AddLineNumber`. -/
def AddLineNumber (lineNumber : String) (e : RichErr Cof) : RichErr Cof :=
  { e with Line := lineNumber }

/-- Go map upsert `m[key] = value` on the association-list model (the
lazy `make` when the map is nil is invisible at this level; the aliasing
consequence of the shared map is modelled separately below for claim C4). -/
def mapInsert (m : List (String × String)) (key value : String) :
    List (String × String) :=
  if m.any (fun kv => kv.1 == key) then
    m.map (fun kv => if kv.1 == key then (key, value) else kv)
  else
    m ++ [(key, value)]

/-- Go `richError.AddMetaData` (functional view of the returned value). -/
def AddMetaData (key value : String) (e : RichErr Cof) : RichErr Cof :=
  { e with MetaData := mapInsert e.MetaData key value }

/-- Go `richError.AddError`: append only when the argument is non-nil. -/
def AddError (err : GoErr Cof) (e : RichErr Cof) : RichErr Cof :=
  match err with
  | .nilE => e
  | _ => { e with InnerErrors := e.InnerErrors ++ [err] }

/-- Go `richError.AddTag`: `e.Tags = append(e.Tags, tag)`. -/
def AddTag (tag : String) (e : RichErr Cof) : RichErr Cof :=
  { e with Tags := e.Tags ++ [tag] }

/-- Go `richError.SetCustomOutputFunction`. -/
def SetCustomOutputFunction (cof : Option Cof) (e : RichErr Cof) :
    RichErr Cof :=
  { e with customOutputFunction := cof }

/-- Go `richError.SetOutputFormat`. -/
def SetOutputFormat (outputFormat : RichErrorOutputFormat)
    (e : RichErr Cof) : RichErr Cof :=
  { e with outputFormat := outputFormat }

/-- Go `richError.getCustomOutputFunction`: the instance-level function if
set, otherwise the package-level one. -/
def getCustomOutputFunction (g : Globals Cof) (e : RichErr Cof) :
    Option Cof :=
  match e.customOutputFunction with
  | some f => some f
  | none => g.customOutputFunction

/-- Go `richError.getErrorOutputFormat`: the instance-level format if it
is not `NotSpecified`, otherwise the package-level one. -/
def getErrorOutputFormat (g : Globals Cof) (e : RichErr Cof) :
    RichErrorOutputFormat :=
  if e.outputFormat ≠ NotSpecified then e.outputFormat
  else g.errorOutputFormat

/-- Go `richError.HasStack`. -/
def HasStack (e : RichErr Cof) : Bool :=
  e.Stack.length > 0

/-- Go `richError.shortOutputString(separator)`. -/
def shortOutputString (separator : String) (e : RichErr Cof) : String :=
  e.OccurredAt ++ separator ++ e.ErrCode ++ separator ++ e.Message

/-- Go `richError.shortDetailedOutputString(separator)`. -/
def shortDetailedOutputString (separator : String) (e : RichErr Cof) :
    String :=
  e.OccurredAt ++ separator ++ e.ErrCode ++ separator ++ e.Message ++
    separator ++ e.Source ++ ":" ++ e.Line

/-- The METADATA section shared by the detailed and full renderers:
emitted only when the map is non-empty, one `partSeparator ++ indent ++
key ++ ": " ++ value` chunk per entry (Go's `%v` of the value is its
string form here). -/
def metaDataSection (partSeparator indentString : String)
    (md : List (String × String)) : String :=
  if md.isEmpty then ""
  else "METADATA:" ++
    strJoin (md.map (fun kv =>
      partSeparator ++ indentString ++ kv.1 ++ ": " ++ kv.2))

/-- Go `richError.detailedOutputString(partSeparator, indentString)`:
ERROR header with timestamp, then SOURCE / ERRCODE / MESSAGE / METADATA
sections, each only when its field is non-empty.  It never touches
`Stack` or `InnerErrors`. -/
def detailedOutputString (partSeparator indentString : String)
    (e : RichErr Cof) : String :=
  "ERROR - " ++ e.OccurredAt ++
  (if e.Source ≠ "" then
    partSeparator ++ "SOURCE: " ++ e.Source ++ ":" ++ e.Line else "") ++
  (if e.ErrCode ≠ "" then
    partSeparator ++ "ERRCODE: " ++ e.ErrCode else "") ++
  (if e.Message ≠ "" then
    partSeparator ++ "MESSAGE: " ++ e.Message else "") ++
  metaDataSection partSeparator indentString e.MetaData

/-- Go `getInnerErrorString(err, partSeparator, indentString, index)`:
a rich inner error (one that implements `ReadOnlyRichError`) is rendered
with `ToString(ShortDetailedOutput)`, i.e. `shortDetailedOutputString " - "`;
any other error with its own `Error()` string.  The caller guards
`err != nil`, so the `nilE` branch is never reached. -/
def getInnerErrorString (partSeparator indentString : String) (index : Nat)
    (err : GoErr Cof) : String :=
  match err with
  | .rich r =>
    partSeparator ++ strRepeat indentString (index + 1) ++
      "ERROR #" ++ toString (index + 1) ++ ": " ++
      shortDetailedOutputString " - " r
  | .plain msg =>
    partSeparator ++ strRepeat indentString (index + 1) ++
      "ERROR #" ++ toString (index + 1) ++ ": " ++ msg
  | .nilE => ""

/-- The STACK section of the full renderer: `partSeparator ++ "STACK: "`
then each frame indented `Depth` times and followed by the separator. -/
def stackSection (partSeparator indentString : String)
    (stack : List callStackEntry) : String :=
  if stack.isEmpty then ""
  else partSeparator ++ "STACK: " ++
    strJoin (stack.map (fun frame =>
      strRepeat indentString frame.Depth ++ frame.toStr ++ partSeparator))

/-- The INNER ERRORS section of the full renderer: the Go loop keeps the
index over the whole slice but skips nil entries. -/
def innerErrorsSection (partSeparator indentString : String)
    (inner : List (GoErr Cof)) : String :=
  if inner.isEmpty then ""
  else "INNER ERRORS:" ++
    strJoin (inner.enum.map (fun p =>
      match p.2 with
      | .nilE => ""
      | err => getInnerErrorString partSeparator indentString p.1 err)) ++
    partSeparator

/-- Go `richError.fullOutputString(partSeparator, indentString)`:
TIMESTAMP, then SOURCE / FUNCTION / LINE_NUM / ERRCODE / MESSAGE when
non-empty, then STACK, INNER ERRORS and METADATA sections when non-empty,
in that order. -/
def fullOutputString (partSeparator indentString : String)
    (e : RichErr Cof) : String :=
  "TIMESTAMP: " ++ e.OccurredAt ++
  (if e.Source ≠ "" then partSeparator ++ "SOURCE: " ++ e.Source else "") ++
  (if e.Function ≠ "" then
    partSeparator ++ "FUNCTION: " ++ e.Function else "") ++
  (if e.Line ≠ "" then partSeparator ++ "LINE_NUM: " ++ e.Line else "") ++
  (if e.ErrCode ≠ "" then
    partSeparator ++ "ERRCODE: " ++ e.ErrCode else "") ++
  (if e.Message ≠ "" then
    partSeparator ++ "MESSAGE: " ++ e.Message else "") ++
  stackSection partSeparator indentString e.Stack ++
  innerErrorsSection partSeparator indentString e.InnerErrors ++
  metaDataSection partSeparator indentString e.MetaData

/-- Go `richError.ToCustomString`: panics (modelled as `Except.error` with
the panic message) when neither the instance-level nor the package-level
custom output function is set, otherwise applies the effective one to the
error.  `applyCof` is the application map for the opaque function type. -/
def ToCustomString (applyCof : Cof → RichErr Cof → String)
    (g : Globals Cof) (e : RichErr Cof) : Except String String :=
  match getCustomOutputFunction g e with
  | none => .error
      "CustomOutput mode is selected and no custom output function set for the error or globally"
  | some cof => .ok (applyCof cof e)

/-- Go `richError.ToString(format)`: the switch over the format constants;
everything that is not `CustomOutput` .. `ShortDetailedOutput` falls into
the default case, the short renderer. -/
def ToString (applyCof : Cof → RichErr Cof → String) (g : Globals Cof)
    (format : RichErrorOutputFormat) (e : RichErr Cof) :
    Except String String :=
  if format = CustomOutput then ToCustomString applyCof g e
  else if format = DetailedOutput then
    .ok (detailedOutputString "\n" "\t" e)
  else if format = FullOutputFormatted then
    .ok (fullOutputString "\n" "\t" e)
  else if format = FullOutputInline then
    .ok (fullOutputString " --- " "" e)
  else if format = ShortDetailedOutput then
    .ok (shortDetailedOutputString " - " e)
  else
    .ok (shortOutputString " - " e)

/-- Go `richError.Error()`: render with the effective output format. -/
def Error (applyCof : Cof → RichErr Cof → String) (g : Globals Cof)
    (e : RichErr Cof) : Except String String :=
  ToString applyCof g (getErrorOutputFormat g e) e

end RichErr

/-! ### Generator (internal/cmd/generate.go) -/

/-- Go struct `dataItem` of generate.go. -/
structure dataItem where
  Name : String
  DataType : String
deriving DecidableEq, Repr

/-- Go struct `errorData` of generate.go: one catalog entry. -/
structure errorData where
  Code : String
  Tags : List String
  Message : String
  IncludeMap : Bool
  MetaData : List dataItem
deriving DecidableEq, Repr

/-- Go `strings.ToLower`, modelled character-wise (the catalog tags the
comparison is applied to are ASCII, where `Char.toLower` agrees with Go). -/
def asciiToLower (s : String) : String :=
  ⟨s.data.map Char.toLower⟩

/-- Go `strings.TrimSpace`, modelled character-wise: drop whitespace from
both ends. -/
def trimSpace (s : String) : String :=
  ⟨((s.data.dropWhile Char.isWhitespace).reverse.dropWhile
      Char.isWhitespace).reverse⟩

/-- The tag normalisation applied to both sides of the comparison in
`getMatchingErrorsByTag`: `strings.TrimSpace(strings.ToLower(tag))`. -/
def normalizeTag (s : String) : String :=
  trimSpace (asciiToLower s)

/-- The inner double loop of `getMatchingErrorsByTag` (with its two
`break`s): does some tag of the entry match some CLI tag after
normalisation? -/
def hasMatchingTag (tags : List String) (errDefinition : errorData) :
    Bool :=
  errDefinition.Tags.any (fun errTag =>
    tags.any (fun cliTag => normalizeTag errTag == normalizeTag cliTag))

/-- Go `getMatchingErrorsByTag(data, tags, isInclude)`: one pass appending
an entry when (include mode) it has a matching tag, or (exclude mode) it
has none. -/
def getMatchingErrorsByTag (data : List errorData) (tags : List String)
    (isInclude : Bool) : List errorData :=
  data.foldl (fun matchingErrors errDefinition =>
    if isInclude && hasMatchingTag tags errDefinition then
      matchingErrors ++ [errDefinition]
    else if !isInclude && !hasMatchingTag tags errDefinition then
      matchingErrors ++ [errDefinition]
    else matchingErrors) []

/-- Outcome of a generator run: either a panic (which aborts the whole
run before any entry is generated) or a normal pass over the final,
filtered entry list. -/
inductive genOutcome where
  | panicked (msg : String) : genOutcome
  | completed (entries : List errorData) : genOutcome
deriving DecidableEq, Repr

/-- Go `strings.Split(s, ",")`. -/
def splitComma (s : String) : List String :=
  s.splitOn ","

/-- Model of the catalog-load and filter phase of `errorGenerator`
(generate.go).  `readResult` is what `ioutil.ReadFile` returns; `parse`
is what `json.Unmarshal` does with the bytes (`.error` = malformed JSON,
in which case the target slice is left untouched, i.e. empty).  Faithful
to the source: the read error is turned into a panic, but the return
value of `json.Unmarshal` on line 134 is discarded, so a parse failure
leaves `errDataSlice` empty and the run continues into the generation
loop over the (possibly filtered) slice. -/
def errorGenerator (readResult : Except String String)
    (parse : String → Except String (List errorData))
    (includeTags excludeTags : String) : genOutcome :=
  match readResult with
  | .error e => .panicked ("failed to open file - " ++ e)
  | .ok jsonErrorDataFileData =>
    let errDataSlice : List errorData :=
      match parse jsonErrorDataFileData with
      | .ok parsed => parsed
      | .error _ => []
    let errDataSlice :=
      if includeTags ≠ "" then
        getMatchingErrorsByTag errDataSlice (splitComma includeTags) true
      else if excludeTags ≠ "" then
        getMatchingErrorsByTag errDataSlice (splitComma excludeTags) false
      else errDataSlice
    .completed errDataSlice

/-! ### Go map reference semantics for AddMetaData (claim C4)

Go value receivers copy the `richError` struct, but `MetaData` is a
`map[string]interface{}` — a pointer into the heap.  The model below makes
that pointer explicit: the heap is a list of maps, `MetaDataRef` is nil or
an index into it.  Only the fields `AddMetaData` / `GetMetaDataItem`
involve are carried, plus the two immutable fields the claim mentions. -/

/-- The heap of `map[string]interface{}` values, indexed by allocation
order; values rendered as strings. -/
abbrev MapHeap := List (List (String × String))

/-- A `richError` as a holder sees it: the struct fields are copied on
every mutator call, but the map field is a shared reference. -/
structure richErrorH where
  ErrCode : String
  OccurredAt : String
  MetaDataRef : Option Nat
deriving DecidableEq, Repr

/-- Go `richError.AddMetaData(key, value)` under map reference semantics:
a nil map is replaced by a fresh allocation (`make`), visible only in the
returned copy; a non-nil map is written through the shared pointer
(`e.MetaData[key] = value`), visible to every holder of the same map. -/
def AddMetaDataH (h : MapHeap) (e : richErrorH) (key value : String) :
    MapHeap × richErrorH :=
  match e.MetaDataRef with
  | none => (h ++ [[(key, value)]], { e with MetaDataRef := some h.length })
  | some r => (h.set r (RichErr.mapInsert (h.getD r []) key value), e)

/-- Go `richError.GetMetaDataItem(key)` under map reference semantics
(`none` stands for Go's `nil, false`). -/
def GetMetaDataItemH (h : MapHeap) (e : richErrorH) (key : String) :
    Option String :=
  match e.MetaDataRef with
  | none => none
  | some r => (h.getD r []).lookup key

/-! ### Helper notions for the theorems -/

/-- `sub` occurs verbatim inside `s`. -/
def strContains (s sub : String) : Prop :=
  ∃ a b : String, s = a ++ sub ++ b

/-- The bytes of a syntactically malformed catalog file. -/
def badCatalogBytes : String := "this is not a json catalog"

/-- What `json.Unmarshal` does with syntactically invalid JSON: it
reports an error and leaves the target untouched. -/
def failingParse : String → Except String (List errorData) :=
  fun _ => .error "invalid character 't' looking for beginning of value"

/-- A concrete error value used by witnesses. -/
def witnessErr : RichErr Unit :=
  { ErrCode := "WitnessCode", Message := "witness message",
    OccurredAt := "2021-01-01 00:00:00 +0000 UTC",
    Source := "main.go", Function := "run", Line := "12",
    Stack := [{ Depth := 0, Entry := 1, File := "main.go",
                Function := "main.run", Line := 12, PC := 2 }],
    InnerErrors := [GoErr.plain "inner boom"],
    MetaData := [("k", "v")] }

/-- The heap (one allocated metadata map) of the C4 exhibit. -/
def mdHeap0 : MapHeap := [[("a", "1")]]

/-- The original error value of the C4 exhibit: it holds a reference to
the allocated map. -/
def mdBase0 : richErrorH :=
  { ErrCode := "C", OccurredAt := "t0", MetaDataRef := some 0 }

/-- The ambient call stack used by the C9 witness: 13 logical frames. -/
def witnessFrames : List runtimeFrame :=
  (List.range 13).map (fun i =>
    { Entry := i, File := "f" ++ toString i ++ ".go",
      Function := "pkg.Fn" ++ toString i, Line := i, PC := i })

theorem strContains_middle (a sub b : String) :
    strContains (a ++ sub ++ b) sub :=
  ⟨a, b, rfl⟩

theorem strContains_appendL (s sub t : String)
    (h : strContains s sub) : strContains (t ++ s) sub := by
  obtain ⟨a, b, rfl⟩ := h
  exact ⟨t ++ a, b, by simp [String.append_assoc]⟩

theorem strContains_appendR (s sub t : String)
    (h : strContains s sub) : strContains (s ++ t) sub := by
  obtain ⟨a, b, rfl⟩ := h
  exact ⟨a, b ++ t, by simp [String.append_assoc]⟩

theorem strJoin_of_mem {α : Type} (f : α → String) :
    ∀ (l : List α) (x : α), x ∈ l →
      ∃ a b : String, strJoin (l.map f) = a ++ f x ++ b := by
  intro l
  induction l with
  | nil => intro x hx; cases hx
  | cons y l ih =>
    intro x hx
    rcases List.mem_cons.mp hx with h | h
    · subst h
      exact ⟨"", strJoin (l.map f), by
        simp [strJoin, String.append_assoc]⟩
    · obtain ⟨a, b, hab⟩ := ih x h
      exact ⟨f y ++ a, b, by
        simp [strJoin, hab, String.append_assoc]⟩

theorem strJoin_of_getElem {α : Type} (f : Nat × α → String) :
    ∀ (l : List α) (n i : Nat) (x : α), l[i]? = some x →
      ∃ a b : String,
        strJoin ((l.enumFrom n).map f) = a ++ f (n + i, x) ++ b := by
  intro l
  induction l with
  | nil => intro n i x hx; simp at hx
  | cons y l ih =>
    intro n i x hx
    match i with
    | 0 =>
      simp at hx
      subst hx
      exact ⟨"", strJoin ((l.enumFrom (n + 1)).map f), by
        simp [List.enumFrom, strJoin, String.append_assoc]⟩
    | i + 1 =>
      simp at hx
      obtain ⟨a, b, hab⟩ := ih (n + 1) i x hx
      refine ⟨f (n, y) ++ a, b, ?_⟩
      have : n + 1 + i = n + (i + 1) := by omega
      simp [List.enumFrom, strJoin, hab, this, String.append_assoc]

theorem foldl_if_append {α : Type} (p : α → Bool) :
    ∀ (l : List α) (acc : List α),
      l.foldl (fun acc x => if p x then acc ++ [x] else acc) acc
        = acc ++ l.filter p := by
  intro l
  induction l with
  | nil => intro acc; simp
  | cons x l ih =>
    intro acc
    cases h : p x <;> simp [List.filter_cons, h, ih]

/-! ### Claim theorems -/

/-- C1: the claim says a malformed (unparsable) catalog aborts the whole
run; the code only panics on an unreadable file, while the error returned
by `json.Unmarshal` on generate.go line 134 is discarded, so a readable
but malformed catalog continues the run normally with an empty entry
list (`generating 0 errors.`) instead of aborting. -/
theorem errorGenerator_ignores_malformed_catalog :
    errorGenerator (.ok badCatalogBytes) failingParse "" ""
      = .completed []
    ∧ errorGenerator
        (.error "open errors.json: no such file or directory")
        failingParse "" ""
      = .panicked
          "failed to open file - open errors.json: no such file or directory"
    ∧ (∀ msg, genOutcome.completed [] ≠ genOutcome.panicked msg) := by
  refine ⟨rfl, rfl, fun msg h => ?_⟩
  cases h

/-- C2: `WithErrors` appends exactly the given list to `innerErrors` in
order, `AddError` appends exactly its non-nil argument, `AddError nil`
leaves `innerErrors` unchanged, and neither operation introduces a nil
entry that was not already present in its inputs. -/
theorem withErrors_addError_append {Cof : Type} (e : RichErr Cof)
    (errs : List (GoErr Cof)) :
    (RichErr.WithErrors errs e).InnerErrors = e.InnerErrors ++ errs
    ∧ (∀ err : GoErr Cof, err ≠ GoErr.nilE →
        (RichErr.AddError err e).InnerErrors = e.InnerErrors ++ [err])
    ∧ (RichErr.AddError GoErr.nilE e).InnerErrors = e.InnerErrors
    ∧ (GoErr.nilE ∉ e.InnerErrors → ∀ err : GoErr Cof,
        GoErr.nilE ∉ (RichErr.AddError err e).InnerErrors)
    ∧ (GoErr.nilE ∉ e.InnerErrors → GoErr.nilE ∉ errs →
        GoErr.nilE ∉ (RichErr.WithErrors errs e).InnerErrors) := by
  refine ⟨rfl, ?_, rfl, ?_, ?_⟩
  · intro err h
    cases err with
    | nilE => exact absurd rfl h
    | plain msg => rfl
    | rich r => rfl
  · intro he err
    cases err with
    | nilE => exact he
    | plain msg =>
      simp only [RichErr.AddError, List.mem_append, List.mem_singleton]
      rintro (h | h)
      · exact he h
      · cases h
    | rich r =>
      simp only [RichErr.AddError, List.mem_append, List.mem_singleton]
      rintro (h | h)
      · exact he h
      · cases h
  · intro he herrs
    simp only [RichErr.WithErrors, List.mem_append]
    rintro (h | h)
    · exact he h
    · exact herrs h

/-- Witness for the C2 theorem at a concrete input. -/
theorem withErrors_addError_append_witness :
    GoErr.plain "x" ≠ (GoErr.nilE : GoErr Unit)
    ∧ (RichErr.AddError (GoErr.plain "x") witnessErr).InnerErrors
        = witnessErr.InnerErrors ++ [GoErr.plain "x"] := by
  constructor
  · intro h; cases h
  · exact (withErrors_addError_append witnessErr []).2.1
      (GoErr.plain "x") (fun h => by cases h)

/-- C4: under Go's map reference semantics, `AddMetaData` on an error
whose metadata map is already allocated writes through the shared map:
the original holder `mdBase0` observes the new key, so the receiver
observed by another holder IS altered (the claim's immutability half
fails), while `code` and `occurredAt` of the returned value are indeed
unchanged (the claim's first half holds). -/
theorem addMetaData_mutates_shared_map :
    GetMetaDataItemH mdHeap0 mdBase0 "b" = none
    ∧ GetMetaDataItemH (AddMetaDataH mdHeap0 mdBase0 "b" "2").1 mdBase0 "b"
        = some "2"
    ∧ (AddMetaDataH mdHeap0 mdBase0 "b" "2").2.ErrCode = mdBase0.ErrCode
    ∧ (AddMetaDataH mdHeap0 mdBase0 "b" "2").2.OccurredAt
        = mdBase0.OccurredAt := by
  refine ⟨rfl, ?_, rfl, rfl⟩
  rfl

/-- C3: include-mode filtering keeps exactly the entries with at least
one tag that, after lower-casing and whitespace-trimming, equals some
normalised CLI tag; exclude-mode filtering keeps exactly the rest, i.e.
the entries of the catalog that are not in the include-mode result. -/
theorem getMatchingErrorsByTag_filter (data : List errorData)
    (tags : List String) :
    getMatchingErrorsByTag data tags true
      = data.filter (fun e => hasMatchingTag tags e)
    ∧ getMatchingErrorsByTag data tags false
      = data.filter (fun e => !hasMatchingTag tags e)
    ∧ (∀ e, e ∈ getMatchingErrorsByTag data tags true ↔
        e ∈ data ∧ ∃ t ∈ e.Tags, ∃ c ∈ tags,
          normalizeTag t = normalizeTag c)
    ∧ (∀ e, e ∈ getMatchingErrorsByTag data tags false ↔
        e ∈ data ∧ e ∉ getMatchingErrorsByTag data tags true) := by
  have h1 : getMatchingErrorsByTag data tags true
      = data.filter (fun e => hasMatchingTag tags e) := by
    unfold getMatchingErrorsByTag
    simpa using foldl_if_append (fun e => hasMatchingTag tags e) data []
  have h2 : getMatchingErrorsByTag data tags false
      = data.filter (fun e => !hasMatchingTag tags e) := by
    unfold getMatchingErrorsByTag
    simpa using foldl_if_append (fun e => !hasMatchingTag tags e) data []
  refine ⟨h1, h2, ?_, ?_⟩
  · intro e
    rw [h1]
    simp [List.mem_filter, hasMatchingTag, List.any_eq_true]
  · intro e
    rw [h1, h2]
    simp only [List.mem_filter, Bool.not_eq_true']
    constructor
    · rintro ⟨hd, hp⟩
      exact ⟨hd, fun hmem => by simp [hp] at hmem⟩
    · rintro ⟨hd, hni⟩
      refine ⟨hd, ?_⟩
      cases h : hasMatchingTag tags e
      · rfl
      · exact absurd ⟨hd, h⟩ hni

/-- Witness for the C3 theorem on a concrete catalog: include keeps the
entry tagged "Http " (matching CLI tag "  HTTP"), exclude keeps the other. -/
theorem getMatchingErrorsByTag_filter_witness :
    getMatchingErrorsByTag
        [⟨"A", ["Http ", "db"], "m", false, []⟩,
         ⟨"B", ["db"], "m", false, []⟩] ["  HTTP"] true
      = [⟨"A", ["Http ", "db"], "m", false, []⟩]
    ∧ (⟨"B", ["db"], "m", false, []⟩ : errorData) ∈
        getMatchingErrorsByTag
          [⟨"A", ["Http ", "db"], "m", false, []⟩,
           ⟨"B", ["db"], "m", false, []⟩] ["  HTTP"] false := by
  constructor
  · rw [(getMatchingErrorsByTag_filter
      [⟨"A", ["Http ", "db"], "m", false, []⟩,
       ⟨"B", ["db"], "m", false, []⟩] ["  HTTP"]).1]
    decide
  · exact ((getMatchingErrorsByTag_filter
      [⟨"A", ["Http ", "db"], "m", false, []⟩,
       ⟨"B", ["db"], "m", false, []⟩] ["  HTTP"]).2.2.2
      ⟨"B", ["db"], "m", false, []⟩).mpr (by decide)

/-- C5: rendering with the Custom format fails fatally (the modelled
panic) exactly when neither the instance-level nor the process-wide
custom renderer is set; otherwise it returns the effective renderer
(instance preferred over process-wide) applied to the error. -/
theorem toCustomString_effective_renderer {Cof : Type}
    (applyCof : Cof → RichErr Cof → String) (g : Globals Cof)
    (e : RichErr Cof) :
    ((∃ msg, RichErr.ToCustomString applyCof g e = .error msg) ↔
      e.customOutputFunction = none ∧ g.customOutputFunction = none)
    ∧ (∀ f, e.customOutputFunction = some f →
        RichErr.ToCustomString applyCof g e = .ok (applyCof f e))
    ∧ (∀ f, e.customOutputFunction = none →
        g.customOutputFunction = some f →
        RichErr.ToCustomString applyCof g e = .ok (applyCof f e))
    ∧ RichErr.ToString applyCof g CustomOutput e
        = RichErr.ToCustomString applyCof g e := by
  refine ⟨?_, ?_, ?_, rfl⟩
  · unfold RichErr.ToCustomString RichErr.getCustomOutputFunction
    cases he : e.customOutputFunction with
    | some f => simp
    | none =>
      cases hg : g.customOutputFunction with
      | some f => simp
      | none => simp
  · intro f hf
    unfold RichErr.ToCustomString RichErr.getCustomOutputFunction
    rw [hf]
  · intro f hf hg
    unfold RichErr.ToCustomString RichErr.getCustomOutputFunction
    rw [hf, hg]

/-- Witness for the C5 theorem: with no renderer set anywhere, the Custom
rendering is the fatal condition, not a normal return. -/
theorem toCustomString_effective_renderer_witness :
    witnessErr.customOutputFunction = none
    ∧ (initialGlobals Unit).customOutputFunction = none
    ∧ (∃ msg, RichErr.ToCustomString (fun _ _ => "") (initialGlobals Unit)
        witnessErr = .error msg) := by
  refine ⟨rfl, rfl, ?_⟩
  exact (toCustomString_effective_renderer (fun _ _ => "")
    (initialGlobals Unit) witnessErr).1.mpr ⟨rfl, rfl⟩

/-- C6: the default stringification renders with the instance-level
format when it is not `NotSpecified` and with the process-wide default
otherwise; the process-wide default starts as `FullOutputFormatted` and
is whatever the global setter last stored. -/
theorem error_resolves_effective_format {Cof : Type}
    (applyCof : Cof → RichErr Cof → String) (g : Globals Cof)
    (e : RichErr Cof) :
    (e.outputFormat ≠ NotSpecified →
      RichErr.Error applyCof g e
        = RichErr.ToString applyCof g e.outputFormat e)
    ∧ (e.outputFormat = NotSpecified →
      RichErr.Error applyCof g e
        = RichErr.ToString applyCof g g.errorOutputFormat e)
    ∧ (initialGlobals Cof).errorOutputFormat = FullOutputFormatted
    ∧ (∀ format, (SetGlobalErrorOutputFormat format g).errorOutputFormat
        = format) := by
  refine ⟨?_, ?_, rfl, fun _ => rfl⟩
  · intro h
    unfold RichErr.Error RichErr.getErrorOutputFormat
    rw [if_pos h]
  · intro h
    unfold RichErr.Error RichErr.getErrorOutputFormat
    rw [if_neg (by simp [h])]

/-- Witness for the C6 theorem: `witnessErr` has `NotSpecified` as its
instance format, so its default stringification uses the process-wide
default. -/
theorem error_resolves_effective_format_witness :
    witnessErr.outputFormat = NotSpecified
    ∧ RichErr.Error (fun _ _ => "") (initialGlobals Unit) witnessErr
        = RichErr.ToString (fun _ _ => "") (initialGlobals Unit)
            (initialGlobals Unit).errorOutputFormat witnessErr := by
  exact ⟨rfl, (error_resolves_effective_format (fun _ _ => "")
    (initialGlobals Unit) witnessErr).2.1 rfl⟩

/-- C10: `ToString` on `NotSpecified` — or on any value that is none of
the six named format constants — takes the default switch branch and
returns the Short rendering, without consulting the instance-level or
process-wide effective format. -/
theorem toString_default_is_short {Cof : Type}
    (applyCof : Cof → RichErr Cof → String) (g : Globals Cof)
    (e : RichErr Cof) (format : RichErrorOutputFormat)
    (h : format = NotSpecified ∨
      format ∉ [CustomOutput, DetailedOutput, FullOutputFormatted,
        FullOutputInline, ShortDetailedOutput, ShortOutput]) :
    RichErr.ToString applyCof g format e
      = .ok (RichErr.shortOutputString " - " e)
    ∧ (∀ (g' : Globals Cof) (instFormat : RichErrorOutputFormat),
        RichErr.ToString applyCof g' format
          { e with outputFormat := instFormat }
          = .ok (RichErr.shortOutputString " - " e)) := by
  have hne : format ≠ CustomOutput ∧ format ≠ DetailedOutput
      ∧ format ≠ FullOutputFormatted ∧ format ≠ FullOutputInline
      ∧ format ≠ ShortDetailedOutput := by
    rcases h with h | h
    · subst h
      refine ⟨?_, ?_, ?_, ?_, ?_⟩ <;> decide
    · simp only [List.mem_cons, List.not_mem_nil, or_false, not_or] at h
      exact ⟨h.1, h.2.1, h.2.2.1, h.2.2.2.1, h.2.2.2.2.1⟩
  obtain ⟨h1, h2, h3, h4, h5⟩ := hne
  constructor
  · unfold RichErr.ToString
    rw [if_neg h1, if_neg h2, if_neg h3, if_neg h4, if_neg h5]
  · intro g' instFormat
    unfold RichErr.ToString
    rw [if_neg h1, if_neg h2, if_neg h3, if_neg h4, if_neg h5]
    rfl

/-- Witness for the C10 theorem: both at `NotSpecified` and at the junk
format value 42, on an error whose instance format is `FullOutputInline`,
`ToString` still produces the Short rendering. -/
theorem toString_default_is_short_witness :
    (NotSpecified = NotSpecified ∨
      NotSpecified ∉ [CustomOutput, DetailedOutput, FullOutputFormatted,
        FullOutputInline, ShortDetailedOutput, ShortOutput])
    ∧ ((42 : RichErrorOutputFormat) = NotSpecified ∨
      (42 : RichErrorOutputFormat) ∉ [CustomOutput, DetailedOutput,
        FullOutputFormatted, FullOutputInline, ShortDetailedOutput,
        ShortOutput])
    ∧ RichErr.ToString (fun _ _ => "") (initialGlobals Unit) NotSpecified
        { witnessErr with outputFormat := FullOutputInline }
      = .ok (RichErr.shortOutputString " - " witnessErr)
    ∧ RichErr.ToString (fun _ _ => "") (initialGlobals Unit) 42 witnessErr
      = .ok (RichErr.shortOutputString " - " witnessErr) := by
  refine ⟨Or.inl rfl, Or.inr (by decide), ?_, ?_⟩
  · exact (toString_default_is_short (fun _ _ => "") (initialGlobals Unit)
      witnessErr NotSpecified (Or.inl rfl)).2 (initialGlobals Unit)
      FullOutputInline
  · exact (toString_default_is_short (fun _ _ => "") (initialGlobals Unit)
      witnessErr 42 (Or.inr (by decide))).1

/-- C9: `WithStack` captures the ambient frames from effective skip
`2 + stackOffset`, at most 10 of them (a deeper stack is silently
truncated at the fixed buffer size), appends them to the existing stack
with capture index `i` recorded as `Depth i`, and — when at least one
frame was captured — sets source, function (trimmed to the substring
after the last "." separator) and line from the first captured frame. -/
theorem withStack_captures {Cof : Type} (e : RichErr Cof)
    (callStack : List runtimeFrame) (stackOffset : Nat) :
    (RichErr.WithStack callStack stackOffset e).Stack
      = e.Stack ++ ((callStack.drop (2 + stackOffset)).take 10).enum.map
          (fun p => { Depth := p.1, Entry := p.2.Entry, File := p.2.File,
                      Function := p.2.Function, Line := p.2.Line,
                      PC := p.2.PC })
    ∧ ((callStack.drop (2 + stackOffset)).take 10).length
        = min 10 (callStack.length - (2 + stackOffset))
    ∧ ((callStack.drop (2 + stackOffset)).take 10).length ≤ 10
    ∧ (∀ (i : Nat) (fr : runtimeFrame),
        ((callStack.drop (2 + stackOffset)).take 10)[i]? = some fr →
        ((RichErr.WithStack callStack stackOffset e).Stack)[e.Stack.length + i]?
          = some { Depth := i, Entry := fr.Entry, File := fr.File,
                   Function := fr.Function, Line := fr.Line, PC := fr.PC })
    ∧ (∀ (fr : runtimeFrame) (rest : List runtimeFrame),
        (callStack.drop (2 + stackOffset)).take 10 = fr :: rest →
        (RichErr.WithStack callStack stackOffset e).Source = fr.File
        ∧ (RichErr.WithStack callStack stackOffset e).Function
            = trimFunctionName fr.Function
        ∧ (RichErr.WithStack callStack stackOffset e).Line
            = toString fr.Line) := by
  have hstack : (RichErr.WithStack callStack stackOffset e).Stack
      = e.Stack ++ ((callStack.drop (2 + stackOffset)).take 10).enum.map
          (fun p => { Depth := p.1, Entry := p.2.Entry, File := p.2.File,
                      Function := p.2.Function, Line := p.2.Line,
                      PC := p.2.PC }) := by
    unfold RichErr.WithStack runtimeCallers
    cases hf : (callStack.drop (2 + stackOffset)).take 10 with
    | nil => simp [hf]
    | cons fr rest => simp [hf]
  refine ⟨hstack, ?_, ?_, ?_, ?_⟩
  · simp [List.length_take, List.length_drop]
  · simp [List.length_take]
  · intro i fr hfr
    rw [hstack,
      List.getElem?_append_right (by omega : e.Stack.length ≤ e.Stack.length + i)]
    have hidx : e.Stack.length + i - e.Stack.length = i := by omega
    rw [hidx, List.getElem?_map, List.getElem?_enum, hfr]
    rfl
  · intro fr rest hfr
    unfold RichErr.WithStack runtimeCallers
    simp only [hfr]
    exact ⟨trivial, trivial, trivial⟩

/-- Witness for the C9 theorem: with `stackOffset = 1` the capture starts
at frame 3 and the first captured frame lands at the end of the existing
stack with depth 0. -/
theorem withStack_captures_witness :
    ((witnessFrames.drop (2 + 1)).take 10)[0]?
      = some { Entry := 3, File := "f3.go", Function := "pkg.Fn3",
               Line := 3, PC := 3 }
    ∧ ((RichErr.WithStack witnessFrames 1 witnessErr).Stack)[witnessErr.Stack.length + 0]?
      = some { Depth := 0, Entry := 3, File := "f3.go",
               Function := "pkg.Fn3", Line := 3, PC := 3 } := by
  refine ⟨by decide, ?_⟩
  exact (withStack_captures witnessErr witnessFrames 1).2.2.2.1 0
    { Entry := 3, File := "f3.go", Function := "pkg.Fn3", Line := 3, PC := 3 }
    (by decide)

theorem strContains_trans (s t u : String) (h1 : strContains s t)
    (h2 : strContains t u) : strContains s u := by
  obtain ⟨a, b, rfl⟩ := h1
  obtain ⟨c, d, rfl⟩ := h2
  exact ⟨a ++ c, d ++ b, by simp [String.append_assoc]⟩

theorem strContains_append_middle (x pre sub b : String) :
    strContains (x ++ ((pre ++ sub) ++ b)) sub :=
  ⟨x ++ pre, b, by simp [String.append_assoc]⟩

theorem stackSection_eq (partSeparator indentString : String)
    (stack : List callStackEntry) (h : stack ≠ []) :
    RichErr.stackSection partSeparator indentString stack
      = (partSeparator ++ "STACK: ") ++
          strJoin (stack.map (fun frame =>
            strRepeat indentString frame.Depth ++ frame.toStr ++
              partSeparator)) := by
  unfold RichErr.stackSection
  rw [if_neg (by simp [h])]

theorem innerSection_eq {Cof : Type} (partSeparator indentString : String)
    (inner : List (GoErr Cof)) (h : inner ≠ []) :
    RichErr.innerErrorsSection partSeparator indentString inner
      = ("INNER ERRORS:" ++
          strJoin (inner.enum.map (fun p =>
            match p.2 with
            | .nilE => ""
            | err => RichErr.getInnerErrorString partSeparator indentString
                p.1 err))) ++ partSeparator := by
  unfold RichErr.innerErrorsSection
  rw [if_neg (by simp [h])]

theorem fullOutputString_contains_stackSub {Cof : Type}
    (partSeparator indentString sub : String) (e : RichErr Cof)
    (h : strContains
      (RichErr.stackSection partSeparator indentString e.Stack) sub) :
    strContains (RichErr.fullOutputString partSeparator indentString e)
      sub := by
  unfold RichErr.fullOutputString
  apply strContains_appendR
  apply strContains_appendR
  exact strContains_appendL _ _ _ h

theorem fullOutputString_contains_innerSub {Cof : Type}
    (partSeparator indentString sub : String) (e : RichErr Cof)
    (h : strContains
      (RichErr.innerErrorsSection partSeparator indentString
        e.InnerErrors) sub) :
    strContains (RichErr.fullOutputString partSeparator indentString e)
      sub := by
  unfold RichErr.fullOutputString
  apply strContains_appendR
  exact strContains_appendL _ _ _ h

theorem full_contains_inner_chunk {Cof : Type}
    (partSeparator indentString : String) (e : RichErr Cof) (i : Nat)
    (err : GoErr Cof) (hget : e.InnerErrors[i]? = some err)
    (hne : err ≠ GoErr.nilE) :
    strContains (RichErr.fullOutputString partSeparator indentString e)
      (RichErr.getInnerErrorString partSeparator indentString i err) := by
  have hinner : e.InnerErrors ≠ [] := by
    intro hnil
    rw [hnil] at hget
    simp at hget
  apply fullOutputString_contains_innerSub
  rw [innerSection_eq partSeparator indentString e.InnerErrors hinner]
  apply strContains_appendR
  apply strContains_appendL
  obtain ⟨a, b, hab⟩ := strJoin_of_getElem
    (fun p =>
      match p.2 with
      | .nilE => ""
      | err => RichErr.getInnerErrorString partSeparator indentString
          p.1 err)
    e.InnerErrors 0 i err hget
  simp only [Nat.zero_add] at hab
  rw [show e.InnerErrors.enum = e.InnerErrors.enumFrom 0 from rfl, hab]
  cases err with
  | nilE => exact absurd rfl hne
  | plain msg => exact strContains_middle a _ b
  | rich r => exact strContains_middle a _ b

/-- C7: the Detailed rendering is independent of the stack and the inner
errors even when both are present (it contains no text from either),
while the FullFormatted rendering contains the STACK section with every
captured frame's text and the INNER ERRORS section with the rendered text
of every (non-nil) inner error. -/
theorem detailed_omits_full_includes {Cof : Type} (e : RichErr Cof)
    (h1 : e.Stack ≠ []) (h2 : e.InnerErrors ≠ []) :
    (∀ partSeparator indentString : String,
      RichErr.detailedOutputString partSeparator indentString e
        = RichErr.detailedOutputString partSeparator indentString
            { e with Stack := [], InnerErrors := [] })
    ∧ strContains (RichErr.fullOutputString "\n" "\t" e) "STACK: "
    ∧ (∀ frame ∈ e.Stack,
        strContains (RichErr.fullOutputString "\n" "\t" e) frame.toStr)
    ∧ strContains (RichErr.fullOutputString "\n" "\t" e) "INNER ERRORS:"
    ∧ (∀ (i : Nat) (err : GoErr Cof), e.InnerErrors[i]? = some err →
        err ≠ GoErr.nilE →
        strContains (RichErr.fullOutputString "\n" "\t" e)
          (RichErr.getInnerErrorString "\n" "\t" i err)) := by
  refine ⟨fun _ _ => rfl, ?_, ?_, ?_, ?_⟩
  · apply fullOutputString_contains_stackSub
    rw [stackSection_eq "\n" "\t" e.Stack h1]
    exact ⟨"\n", strJoin (e.Stack.map (fun frame =>
      strRepeat "\t" frame.Depth ++ frame.toStr ++ "\n")), by
        simp [String.append_assoc]⟩
  · intro frame hmem
    apply fullOutputString_contains_stackSub
    rw [stackSection_eq "\n" "\t" e.Stack h1]
    apply strContains_appendL
    obtain ⟨a, b, hab⟩ := strJoin_of_mem
      (fun frame => strRepeat "\t" frame.Depth ++ frame.toStr ++ "\n")
      e.Stack frame hmem
    rw [hab]
    exact ⟨a ++ strRepeat "\t" frame.Depth, "\n" ++ b, by
      simp [String.append_assoc]⟩
  · apply fullOutputString_contains_innerSub
    rw [innerSection_eq "\n" "\t" e.InnerErrors h2]
    apply strContains_appendR
    exact ⟨"", strJoin (e.InnerErrors.enum.map (fun p =>
      match p.2 with
      | .nilE => ""
      | err => RichErr.getInnerErrorString "\n" "\t" p.1 err)), by
        simp [String.empty_append]⟩
  · intro i err hget hne
    exact full_contains_inner_chunk "\n" "\t" e i err hget hne

/-- Witness for the C7 theorem at `witnessErr`, which has one stack frame
and one (plain, non-nil) inner error. -/
theorem detailed_omits_full_includes_witness :
    witnessErr.Stack ≠ [] ∧ witnessErr.InnerErrors ≠ []
    ∧ ((∀ partSeparator indentString : String,
        RichErr.detailedOutputString partSeparator indentString witnessErr
          = RichErr.detailedOutputString partSeparator indentString
              { witnessErr with Stack := [], InnerErrors := [] })
      ∧ strContains (RichErr.fullOutputString "\n" "\t" witnessErr)
          "STACK: "
      ∧ (∀ frame ∈ witnessErr.Stack,
          strContains (RichErr.fullOutputString "\n" "\t" witnessErr)
            frame.toStr)
      ∧ strContains (RichErr.fullOutputString "\n" "\t" witnessErr)
          "INNER ERRORS:"
      ∧ (∀ (i : Nat) (err : GoErr Unit),
          witnessErr.InnerErrors[i]? = some err → err ≠ GoErr.nilE →
          strContains (RichErr.fullOutputString "\n" "\t" witnessErr)
            (RichErr.getInnerErrorString "\n" "\t" i err))) := by
  have h1 : witnessErr.Stack ≠ [] := by
    intro h
    exact absurd h (List.cons_ne_nil _ _)
  have h2 : witnessErr.InnerErrors ≠ [] := by
    intro h
    exact absurd h (List.cons_ne_nil _ _)
  exact ⟨h1, h2, detailed_omits_full_includes witnessErr h1 h2⟩

/-- C8: within any full rendering (both FullFormatted's separators and
FullInline's), an inner error that is itself a rich error is rendered via
`ToString(ShortDetailedOutput)` — whose output is the ShortDetailed
rendering — while any other non-nil inner error is rendered via its own
`Error()` string. -/
theorem inner_rendering_dispatch {Cof : Type} (e : RichErr Cof)
    (partSeparator indentString : String) (i : Nat) :
    (∀ r : RichErr Cof, e.InnerErrors[i]? = some (GoErr.rich r) →
      strContains
        (RichErr.fullOutputString partSeparator indentString e)
        ("ERROR #" ++ toString (i + 1) ++ ": " ++
          RichErr.shortDetailedOutputString " - " r)
      ∧ (∀ (applyCof : Cof → RichErr Cof → String) (g : Globals Cof),
          RichErr.ToString applyCof g ShortDetailedOutput r
            = .ok (RichErr.shortDetailedOutputString " - " r)))
    ∧ (∀ msg : String, e.InnerErrors[i]? = some (GoErr.plain msg) →
      strContains
        (RichErr.fullOutputString partSeparator indentString e)
        ("ERROR #" ++ toString (i + 1) ++ ": " ++ msg)) := by
  constructor
  · intro r hget
    constructor
    · apply strContains_trans _
        (RichErr.getInnerErrorString partSeparator indentString i
          (GoErr.rich r))
      · exact full_contains_inner_chunk partSeparator indentString e i
          (GoErr.rich r) hget (fun h => by cases h)
      · exact ⟨partSeparator ++ strRepeat indentString (i + 1), "", by
          simp [RichErr.getInnerErrorString, String.append_assoc,
            String.append_empty]⟩
    · intro applyCof g
      rfl
  · intro msg hget
    apply strContains_trans _
      (RichErr.getInnerErrorString partSeparator indentString i
        (GoErr.plain msg))
    · exact full_contains_inner_chunk partSeparator indentString e i
        (GoErr.plain msg) hget (fun h => by cases h)
    · exact ⟨partSeparator ++ strRepeat indentString (i + 1), "", by
        simp [RichErr.getInnerErrorString, String.append_assoc,
          String.append_empty]⟩

/-- Witness for the C8 theorem: `witnessErr`'s inner error at index 0 is
a plain (non-rich) error and its `Error()` text appears in the full
rendering behind its "ERROR #1: " label. -/
theorem inner_rendering_dispatch_witness :
    witnessErr.InnerErrors[0]? = some (GoErr.plain "inner boom")
    ∧ strContains (RichErr.fullOutputString "\n" "\t" witnessErr)
        ("ERROR #" ++ toString (0 + 1) ++ ": " ++ "inner boom") := by
  refine ⟨rfl, ?_⟩
  exact (inner_rendering_dispatch witnessErr "\n" "\t" 0).2
    "inner boom" rfl

end Richerror
